import Mathlib

/-!
Shallow embedding of the two-frame rotation-centre polar-alignment solver of
this repository (`src/astronomy/polar_two_step_solver.py`) and of the
pixel-to-angular error converter (`src/astronomy/polar_error_converter.py`).

NumPy floating-point arithmetic is modelled over `ℝ`.  The IEEE `inf`
sentinel used for the mean matching error is modelled by `(⊤ : EReal)`;
every other numeric value is a plain real.
-/

namespace LyraSolver

/-- A 2-D point in image pixel coordinates, `(x, y)`. -/
abbrev Point := ℝ × ℝ

/-- A grayscale image: height `H`, width `W` and the intensity of each pixel,
`pix y x` mirroring the NumPy indexing `img[y, x]` (row first). -/
structure Image where
  H : ℕ
  W : ℕ
  pix : ℕ → ℕ → ℝ

/-- Sum of all pixel intensities of `img`. -/
noncomputable def imgSum (img : Image) : ℝ :=
  ∑ y ∈ Finset.range img.H, ∑ x ∈ Finset.range img.W, img.pix y x

/-- Global mean intensity (`np.mean`). -/
noncomputable def imgMean (img : Image) : ℝ := imgSum img / (img.H * img.W)

/-- Population variance of the intensities; `np.std` is its square root. -/
noncomputable def imgVar (img : Image) : ℝ :=
  (∑ y ∈ Finset.range img.H, ∑ x ∈ Finset.range img.W,
      (img.pix y x - imgMean img) ^ 2) / (img.H * img.W)

/-- Global standard deviation (`np.std`, population variant `ddof = 0`). -/
noncomputable def imgStd (img : Image) : ℝ := Real.sqrt (imgVar img)

/-- Boolean threshold-and-local-maximum test for the interior pixel at row
`i + 1`, column `j + 1` (with `i < H - 2`, `j < W - 2`), mirroring the
centre slice `a` and the eight shifted slices `n0 … n7` of
`_local_maxima_points`. -/
noncomputable def localMaxB (img : Image) (thr : ℝ) (i j : ℕ) : Bool :=
  decide (img.pix (i+1) (j+1) > thr ∧
    img.pix (i+1) (j+1) ≥ img.pix i j ∧
    img.pix (i+1) (j+1) ≥ img.pix i (j+1) ∧
    img.pix (i+1) (j+1) ≥ img.pix i (j+2) ∧
    img.pix (i+1) (j+1) ≥ img.pix (i+1) j ∧
    img.pix (i+1) (j+1) ≥ img.pix (i+1) (j+2) ∧
    img.pix (i+1) (j+1) ≥ img.pix (i+2) j ∧
    img.pix (i+1) (j+1) ≥ img.pix (i+2) (j+1) ∧
    img.pix (i+1) (j+1) ≥ img.pix (i+2) (j+2))

/-- Interior index grid `(i, j)` (`i < H - 2`, `j < W - 2`) in the row-major
order in which `np.where` enumerates a 2-D boolean array. -/
def interiorIdx (H W : ℕ) : List (ℕ × ℕ) :=
  (List.range (H - 2)).flatMap fun i => (List.range (W - 2)).map fun j => (i, j)

/-- Indices `(i, j)` whose interior pixel `(i + 1, j + 1)` passes the
threshold and 3×3 local-maximum test (the `maxima` boolean array of
`_local_maxima_points`, before the `+1` coordinate shift). -/
noncomputable def maximaCoords (img : Image) (thr : ℝ) : List (ℕ × ℕ) :=
  (interiorIdx img.H img.W).filter fun ij => localMaxB img thr ij.1 ij.2

/-- Candidate indices paired with their intensity `img[ys, xs]`. -/
noncomputable def candPairs (img : Image) (thr : ℝ) : List ((ℕ × ℕ) × ℝ) :=
  (maximaCoords img thr).map fun ij => (ij, img.pix (ij.1 + 1) (ij.2 + 1))

/-- Insertion into a list kept sorted by decreasing second component.
Together with `sortByValDesc` this models `np.argsort(vals)[::-1]`; NumPy
does not specify the relative order of equal intensities and no claim
depends on it. -/
noncomputable def insertByGe (x : (ℕ × ℕ) × ℝ) :
    List ((ℕ × ℕ) × ℝ) → List ((ℕ × ℕ) × ℝ)
  | [] => [x]
  | y :: ys => if y.2 ≤ x.2 then x :: y :: ys else y :: insertByGe x ys

/-- Sort candidate/intensity pairs by decreasing intensity. -/
noncomputable def sortByValDesc (l : List ((ℕ × ℕ) × ℝ)) : List ((ℕ × ℕ) × ℝ) :=
  l.foldr insertByGe []

/-- Models `_local_maxima_points`: thresholded 3×3 local maxima of the
interior, sorted by intensity descending, truncated to `max_points`, and
returned as `(x, y) = (j + 1, i + 1)` points (the `xs + 1` / `ys + 1` shift
back to full-image coordinates).  The early `xs.size == 0` return of the
source coincides with this general path, both yielding `[]`. -/
noncomputable def _local_maxima_points (img : Image) (threshold : ℝ)
    (max_points : ℕ) : List Point :=
  ((sortByValDesc (candPairs img threshold)).take max_points).map
    fun t => (((t.1.2 + 1 : ℕ) : ℝ), ((t.1.1 + 1 : ℕ) : ℝ))

/-- Models `detect_stars`.  The `img.ndim != 2` guard of the source cannot
fire in this embedding because `Image` is two-dimensional by construction. -/
noncomputable def detect_stars (img : Image) (max_points : ℕ) : List Point :=
  _local_maxima_points img (imgMean img + 3.0 * imgStd img) max_points

/-- Degrees to radians (`np.deg2rad` / `math.radians`). -/
noncomputable def deg2rad (x : ℝ) : ℝ := x * (Real.pi / 180)

/-- Models `rotate_points`: rigid rotation of every point about `center` by
`angle_deg` degrees. -/
noncomputable def rotate_points (P : List Point) (center : Point)
    (angle_deg : ℝ) : List Point :=
  P.map fun p =>
    (Real.cos (deg2rad angle_deg) * (p.1 - center.1) -
       Real.sin (deg2rad angle_deg) * (p.2 - center.2) + center.1,
     Real.sin (deg2rad angle_deg) * (p.1 - center.1) +
       Real.cos (deg2rad angle_deg) * (p.2 - center.2) + center.2)

/-- Squared Euclidean distance (the `d2` array entries of `match_points`). -/
noncomputable def sqDist (p q : Point) : ℝ :=
  (q.1 - p.1) * (q.1 - p.1) + (q.2 - p.2) * (q.2 - p.2)

/-- Index of the first occurrence of the minimum of `l` — the documented
semantics of `np.argmin` (`0` on the empty list, where NumPy raises). -/
noncomputable def argmin : List ℝ → ℕ
  | [] => 0
  | x :: xs =>
    if xs = [] then 0
    else if x ≤ xs.getD (argmin xs) 0 then 0 else argmin xs + 1

/-- The main loop of `match_points`: for each remaining point `p` of `P`,
the globally nearest point of `Q` is located by `argmin` over the squared
distances; if its `used` flag is already set, `p` is skipped (`continue`),
otherwise the pair is accepted exactly when its Euclidean distance is at
most `tol`, consuming that `Q` index. -/
noncomputable def matchLoop (Q : List Point) (tol : ℝ) :
    List Point → List Bool → List Point × List Point × List ℝ
  | [], _ => ([], [], [])
  | p :: ps, used =>
    let d2 := Q.map fun q => sqDist p q
    let j := argmin d2
    if used.getD j false then matchLoop Q tol ps used
    else if Real.sqrt (d2.getD j 0) ≤ tol then
      let rest := matchLoop Q tol ps (used.set j true)
      (p :: rest.1, Q.getD j ((0 : ℝ), (0 : ℝ)) :: rest.2.1,
        Real.sqrt (d2.getD j 0) :: rest.2.2)
    else matchLoop Q tol ps used

/-- Models `match_points`.  The third component is the arithmetic mean of the
accepted pairwise distances, `⊤` standing for the `float("inf")` sentinel
returned when either input is empty or no pair was accepted. -/
noncomputable def match_points (P Q : List Point) (tol_px : ℝ) :
    List Point × List Point × EReal :=
  if P.length = 0 ∨ Q.length = 0 then ([], [], (⊤ : EReal))
  else
    let r := matchLoop Q tol_px P (List.replicate Q.length false)
    if r.2.2.length = 0 then ([], [], (⊤ : EReal))
    else (r.1, r.2.1, ((r.2.2.sum / r.2.2.length : ℝ) : EReal))

/-- The position `j` holds the first occurrence of the minimum of `l`. -/
def IsFirstMin (l : List ℝ) (j : ℕ) : Prop :=
  j < l.length ∧ (∀ k, k < l.length → l.getD j 0 ≤ l.getD k 0) ∧
    ∀ k, k < j → l.getD j 0 < l.getD k 0

-- The unique first minimiser of `l`, described declaratively via choice.
open Classical in
noncomputable def firstMinIdx (l : List ℝ) : ℕ :=
  if h : ∃ j, IsFirstMin l j then h.choose else 0

/-- Greedy matcher as described by the amended claim C1: for each `P` point
in order, the globally nearest `Q` point (consumed or not) is selected; if it
is already consumed the `P` point is skipped, otherwise the pair is accepted
exactly when its distance is within tolerance.  Stated with a `Finset` of
consumed indices and a declaratively characterised nearest index. -/
noncomputable def greedyNearestAll (Q : List Point) (tol : ℝ) :
    List Point → Finset ℕ → List (Point × Point × ℝ)
  | [], _ => []
  | p :: ps, consumed =>
    let j := firstMinIdx (Q.map fun q => sqDist p q)
    if j ∈ consumed then greedyNearestAll Q tol ps consumed
    else if Real.sqrt (sqDist p (Q.getD j ((0 : ℝ), (0 : ℝ)))) ≤ tol then
      (p, Q.getD j ((0 : ℝ), (0 : ℝ)),
        Real.sqrt (sqDist p (Q.getD j ((0 : ℝ), (0 : ℝ))))) ::
        greedyNearestAll Q tol ps (insert j consumed)
    else greedyNearestAll Q tol ps consumed

/-- Packaging of `greedyNearestAll` with the same empty-input and zero-pair
handling as `match_points` (amended claim C1). -/
noncomputable def match_points_amended (P Q : List Point) (tol : ℝ) :
    List Point × List Point × EReal :=
  if P.length = 0 ∨ Q.length = 0 then ([], [], (⊤ : EReal))
  else
    let pairs := greedyNearestAll Q tol P ∅
    if pairs.length = 0 then ([], [], (⊤ : EReal))
    else (pairs.map fun t => t.1, pairs.map fun t => t.2.1,
      (((pairs.map fun t => t.2.2).sum / pairs.length : ℝ) : EReal))

/-- Greedy matcher as literally described by claim C1: for each `P` point,
the nearest *not-yet-used* `Q` point is selected, the pair being accepted
when within tolerance and the `P` point skipped only when no unused `Q`
point lies within tolerance. -/
noncomputable def greedyNearestUnused (Q : List Point) (tol : ℝ) :
    List Point → Finset ℕ → List (Point × Point × ℝ)
  | [], _ => []
  | p :: ps, consumed =>
    let free := (List.range Q.length).filter fun j => decide (j ∉ consumed)
    if free = [] then greedyNearestUnused Q tol ps consumed
    else
      let j := free.getD
        (argmin (free.map fun k => sqDist p (Q.getD k ((0 : ℝ), (0 : ℝ))))) 0
      if Real.sqrt (sqDist p (Q.getD j ((0 : ℝ), (0 : ℝ)))) ≤ tol then
        (p, Q.getD j ((0 : ℝ), (0 : ℝ)),
          Real.sqrt (sqDist p (Q.getD j ((0 : ℝ), (0 : ℝ))))) ::
          greedyNearestUnused Q tol ps (insert j consumed)
      else greedyNearestUnused Q tol ps consumed

/-- Packaging of `greedyNearestUnused` analogous to `match_points` — the
matcher that claim C1, read literally, asserts the source implements. -/
noncomputable def match_points_claimed (P Q : List Point) (tol : ℝ) :
    List Point × List Point × EReal :=
  if P.length = 0 ∨ Q.length = 0 then ([], [], (⊤ : EReal))
  else
    let pairs := greedyNearestUnused Q tol P ∅
    if pairs.length = 0 then ([], [], (⊤ : EReal))
    else (pairs.map fun t => t.1, pairs.map fun t => t.2.1,
      (((pairs.map fun t => t.2.2).sum / pairs.length : ℝ) : EReal))

/-- Models `np.arange(start, stop, step)` over the reals (for positive
`step`): the `⌈(stop - start) / step⌉` values `start + k·step`.  NumPy
raises for `step = 0`; no claim exercises a non-positive step. -/
noncomputable def arange (start stop step : ℝ) : List ℝ :=
  (List.range (Int.toNat ⌈(stop - start) / step⌉)).map
    fun k => start + (k : ℝ) * step

/-- One step of the best-hypothesis accumulation of `solve_polar_two_step`:
state `(best_matches, best_err, best_angle)`, update on strictly more
matches, or on equal matches and strictly smaller mean error. -/
noncomputable def selectStep (b : ℤ × EReal × ℝ) (t : ℝ × ℕ × EReal) :
    ℤ × EReal × ℝ :=
  if (t.2.1 : ℤ) > b.1 ∨ ((t.2.1 : ℤ) = b.1 ∧ t.2.2 < b.2.1)
  then ((t.2.1 : ℤ), t.2.2, t.1) else b

/-- The angle-scoring loop of `solve_polar_two_step`, starting from
`best_matches = -1`, `best_err = inf`, `best_angle = 0.0`. -/
noncomputable def searchFold (trials : List (ℝ × ℕ × EReal)) : ℤ × EReal × ℝ :=
  trials.foldl selectStep ((-1 : ℤ), (⊤ : EReal), (0 : ℝ))

/-- Preorder on `(best_matches, best_err, best_angle)` states: `y` is at
least as good as `x` when it has strictly more matches, or equally many and
a mean error at most as large. -/
def stateLe (x y : ℤ × EReal × ℝ) : Prop :=
  x.1 < y.1 ∨ (x.1 = y.1 ∧ y.2.1 ≤ x.2.1)

/-- The per-angle trial data of the loop body of `solve_polar_two_step`:
rotate `P1` about the pivot by the candidate angle, match against `P2`, and
record `(angle, match count, mean error)`. -/
noncomputable def solveTrials (P1 P2 : List Point) (center : Point) (tol : ℝ)
    (angles : List ℝ) : List (ℝ × ℕ × EReal) :=
  angles.map fun a =>
    (a, (match_points (rotate_points P1 center a) P2 tol).1.length,
      (match_points (rotate_points P1 center a) P2 tol).2.2)

/-- Insertion into an ascending-sorted list of reals. -/
noncomputable def insertAsc (x : ℝ) : List ℝ → List ℝ
  | [] => [x]
  | y :: ys => if x ≤ y then x :: y :: ys else y :: insertAsc x ys

/-- Ascending insertion sort of a list of reals. -/
noncomputable def sortAsc (l : List ℝ) : List ℝ := l.foldr insertAsc []

/-- Models `np.median`: middle element of the ascending sort for odd length,
mean of the two middle elements for even length. -/
noncomputable def medianR (l : List ℝ) : ℝ :=
  if l.length % 2 = 1 then (sortAsc l).getD (l.length / 2) 0
  else ((sortAsc l).getD (l.length / 2 - 1) 0 + (sortAsc l).getD (l.length / 2) 0) / 2

/-- Determinant of `A = I − R(θ)` as computed by `np.linalg.det` on the 2×2
matrix `[[1-c, s], [-s, 1-c]]` built in `estimate_center_from_pairs`. -/
noncomputable def rotDet (angle_deg : ℝ) : ℝ :=
  (1 - Real.cos (deg2rad angle_deg)) * (1 - Real.cos (deg2rad angle_deg)) -
    Real.sin (deg2rad angle_deg) * (-Real.sin (deg2rad angle_deg))

/-- The per-pair solution `Ainv @ (q − R @ p)` of
`estimate_center_from_pairs`, with `Ainv` the explicit inverse of the 2×2
matrix `A = I − R(θ)` (`np.linalg.inv`). -/
noncomputable def pairSolution (angle_deg : ℝ) (p q : Point) : Point :=
  (((1 - Real.cos (deg2rad angle_deg)) / rotDet angle_deg) *
      (q.1 - (Real.cos (deg2rad angle_deg) * p.1 - Real.sin (deg2rad angle_deg) * p.2)) +
    (-(Real.sin (deg2rad angle_deg)) / rotDet angle_deg) *
      (q.2 - (Real.sin (deg2rad angle_deg) * p.1 + Real.cos (deg2rad angle_deg) * p.2)),
   (Real.sin (deg2rad angle_deg) / rotDet angle_deg) *
      (q.1 - (Real.cos (deg2rad angle_deg) * p.1 - Real.sin (deg2rad angle_deg) * p.2)) +
    ((1 - Real.cos (deg2rad angle_deg)) / rotDet angle_deg) *
      (q.2 - (Real.sin (deg2rad angle_deg) * p.1 + Real.cos (deg2rad angle_deg) * p.2)))

/-- Models `estimate_center_from_pairs`: fail on a near-singular `I − R(θ)`,
otherwise solve each pair's 2×2 system independently and return the
component-wise median of the per-pair solutions. -/
noncomputable def estimate_center_from_pairs (P Q : List Point)
    (angle_deg : ℝ) : (ℝ × ℝ) × Bool :=
  if |rotDet angle_deg| < 1e-6 then (((0 : ℝ), (0 : ℝ)), false)
  else
    let sols := List.zipWith (pairSolution angle_deg) P Q
    ((medianR (sols.map Prod.fst), medianR (sols.map Prod.snd)), true)

/-- Mirrors the `SolverResult` dataclass.  The source field `matches` is
spelled `nmatches` here (`matches` is reserved in Lean); it is an `ℤ`
because the source stores the loop accumulator `best_matches`, initialised
to `-1`, in this field on one failure path. -/
structure SolverResult where
  ok : Bool
  angle_deg : ℝ
  center_xy : ℝ × ℝ
  offset_xy : ℝ × ℝ
  nmatches : ℤ
  mean_error_px : EReal
  total_error_px : ℝ
  message : String

/-- Geometric centre `(W / 2, H / 2)` of the first image. -/
noncomputable def imgCenter (img : Image) : ℝ × ℝ :=
  ((img.W : ℝ) / 2, (img.H : ℝ) / 2)

/-- The best `(best_matches, best_err, best_angle)` state after the angle
sweep of `solve_polar_two_step`. -/
noncomputable def solverBest (img1 img2 : Image) (search_deg : ℝ × ℝ)
    (step_deg tol_px : ℝ) (max_points : ℕ) : ℤ × EReal × ℝ :=
  searchFold (solveTrials (detect_stars img1 max_points)
    (detect_stars img2 max_points) (imgCenter img1) tol_px
    (arange search_deg.1 (search_deg.2 + 1e-6) step_deg))

/-- The re-matching at the best angle performed by `solve_polar_two_step`
after the sweep. -/
noncomputable def solverRematch (img1 img2 : Image) (search_deg : ℝ × ℝ)
    (step_deg tol_px : ℝ) (max_points : ℕ) :
    List Point × List Point × EReal :=
  match_points
    (rotate_points (detect_stars img1 max_points) (imgCenter img1)
      (solverBest img1 img2 search_deg step_deg tol_px max_points).2.2)
    (detect_stars img2 max_points) tol_px

/-- Models `solve_polar_two_step`.  The `ndim != 2` guard of the source is
unrepresentable here (`Image` is two-dimensional by construction); all
remaining branches are mirrored. -/
noncomputable def solve_polar_two_step (img1 img2 : Image)
    (search_deg : ℝ × ℝ) (step_deg tol_px : ℝ) (max_points : ℕ) :
    SolverResult :=
  let center_img := imgCenter img1
  let P1 := detect_stars img1 max_points
  let P2 := detect_stars img2 max_points
  if P1.length < 12 ∨ P2.length < 12 then
    { ok := false, angle_deg := 0, center_xy := center_img,
      offset_xy := (0, 0), nmatches := 0, mean_error_px := ((0 : ℝ) : EReal),
      total_error_px := 0,
      message := "Pocas estrellas (img1=" ++ toString P1.length ++
        ", img2=" ++ toString P2.length ++ "). Sube expo/gain." }
  else
    let best := solverBest img1 img2 search_deg step_deg tol_px max_points
    if best.1 < 8 then
      { ok := false, angle_deg := best.2.2, center_xy := center_img,
        offset_xy := (0, 0), nmatches := best.1, mean_error_px := best.2.1,
        total_error_px := 0,
        message := "No hay matches suficientes. Gira RA 60–90° y sube expo/gain." }
    else
      let Pr := solverRematch img1 img2 search_deg step_deg tol_px max_points
      if Pr.1.length < 8 then
        { ok := false, angle_deg := best.2.2, center_xy := center_img,
          offset_xy := (0, 0), nmatches := (Pr.1.length : ℤ),
          mean_error_px := Pr.2.2, total_error_px := 0,
          message := "Matching insuficiente. Ajusta tol_px o mejora capturas." }
      else
        let ce := estimate_center_from_pairs Pr.1 Pr.2.1 best.2.2
        if ce.2 = false then
          { ok := false, angle_deg := best.2.2, center_xy := center_img,
            offset_xy := (0, 0), nmatches := (Pr.1.length : ℤ),
            mean_error_px := Pr.2.2, total_error_px := 0,
            message := "No se pudo estimar el centro (degenerado)." }
        else
          { ok := true, angle_deg := best.2.2, center_xy := ce.1,
            offset_xy := (ce.1.1 - center_img.1, ce.1.2 - center_img.2),
            nmatches := (Pr.1.length : ℤ), mean_error_px := Pr.2.2,
            total_error_px := Real.sqrt
              ((ce.1.1 - center_img.1) * (ce.1.1 - center_img.1) +
               (ce.1.2 - center_img.2) * (ce.1.2 - center_img.2)),
            message := "OK. Centro de rotación estimado." }

/-- Mirrors the `PolarErrorAngular` dataclass. -/
structure PolarErrorAngular where
  ok : Bool
  azi_arcsec : ℝ
  alt_arcsec : ℝ
  total_arcsec : ℝ
  azi_text : String
  alt_text : String
  total_text : String
  azi_move : String
  alt_move : String
  message : String

/-- Models `plate_scale_arcsec_per_px`: `206.265 · pixel_um / focal_mm`,
with `0.0` returned for a non-positive focal length or pixel size. -/
noncomputable def plate_scale_arcsec_per_px (pixel_um focal_mm : ℝ) : ℝ :=
  if focal_mm ≤ 0 ∨ pixel_um ≤ 0 then 0
  else 206.265 * (pixel_um / focal_mm)

/-- Models the source helper `_rot`: standard 2-D rotation of `(dx, dy)` by
`deg` degrees. -/
noncomputable def rotVec (dx dy deg : ℝ) : ℝ × ℝ :=
  (Real.cos (deg2rad deg) * dx - Real.sin (deg2rad deg) * dy,
   Real.sin (deg2rad deg) * dx + Real.cos (deg2rad deg) * dy)

/-- The north-orientation dictionary lookup of `convert_px_to_alt_azi`, with
default `0.0` for unknown keys. -/
noncomputable def northRotDeg (o : String) : ℝ :=
  if o = "N_ARRIBA" then 0
  else if o = "N_DERECHA" then 90
  else if o = "N_ABAJO" then 180
  else if o = "N_IZQUIERDA" then -90
  else 0

/-- Abstraction of a Python decimal rendering of a float (used only inside
human-readable strings that no claim inspects): decimal formatting of a real
number is outside the scope of the embedding, so it is rendered as the empty
string. -/
noncomputable def pyFloatRepr (_x : ℝ) : String := ""

/-- Models `_format_arcsec` (sign, whole degrees, whole minutes, seconds).
The zero-padding and one-decimal rendering of the numeric pieces is
abstracted by `pyFloatRepr` / `toString`; no claim inspects these strings. -/
noncomputable def formatArcsec (arcsec : ℝ) : String :=
  (if arcsec < 0 then "-" else "") ++
    toString (Int.toNat ⌊|arcsec| / 3600⌋) ++ "° " ++
    toString (Int.toNat ⌊(|arcsec| - (⌊|arcsec| / 3600⌋ : ℤ) * 3600) / 60⌋) ++ "′ " ++
    pyFloatRepr (|arcsec| - (⌊|arcsec| / 3600⌋ : ℤ) * 3600 -
      (⌊(|arcsec| - (⌊|arcsec| / 3600⌋ : ℤ) * 3600) / 60⌋ : ℤ) * 60) ++ "″"

/-- Models `convert_px_to_alt_azi` of `polar_error_converter.py`. -/
noncomputable def convert_px_to_alt_azi (dx_px dy_px pixel_um focal_mm : ℝ)
    (north_orientation : String) : PolarErrorAngular :=
  let s := plate_scale_arcsec_per_px pixel_um focal_mm
  if s ≤ 0 then
    { ok := false, azi_arcsec := 0, alt_arcsec := 0, total_arcsec := 0,
      azi_text := "—", alt_text := "—", total_text := "—",
      azi_move := "—", alt_move := "—",
      message := "Configura focal (mm) y tamaño de píxel (µm) para convertir a coordenadas." }
  else
    let d := rotVec dx_px dy_px (northRotDeg north_orientation)
    let alt := -d.2 * s
    let azi := d.1 * s
    { ok := true, azi_arcsec := azi, alt_arcsec := alt,
      total_arcsec := Real.sqrt (alt * alt + azi * azi),
      azi_text := formatArcsec azi, alt_text := formatArcsec alt,
      total_text := formatArcsec (Real.sqrt (alt * alt + azi * azi)),
      azi_move := if azi > 0 then "Mover AZI →"
        else if azi < 0 then "Mover AZI ←" else "AZI OK",
      alt_move := if alt > 0 then "Mover ALT ↑"
        else if alt < 0 then "Mover ALT ↓" else "ALT OK",
      message := "Escala: " ++ pyFloatRepr s ++ "″/px (pixel=" ++
        pyFloatRepr pixel_um ++ "µm, focal=" ++ pyFloatRepr focal_mm ++ "mm)." }

/-- A 3×3 all-black frame (concrete input for witnesses). -/
noncomputable def zero3 : Image := ⟨3, 3, fun _ _ => 0⟩

/-- Concrete pre-rotated point set for the claim C1 counterexample. -/
noncomputable def Pcex : List Point := [((0 : ℝ), 0), ((1 : ℝ), 0)]

/-- Concrete reference point set for the claim C1 counterexample. -/
noncomputable def Qcex : List Point := [((0 : ℝ), 0), ((3 : ℝ), 0)]

/-! ## Generic list lemmas -/

theorem getD_set_self {α : Type} (l : List α) (j : ℕ) (b d : α)
    (h : j < l.length) : (l.set j b).getD j d = b := by
  rw [List.getD_eq_getElem _ _ (by simpa using h)]
  exact List.getElem_set_self _

theorem getD_set_ne {α : Type} (l : List α) (j k : ℕ) (b d : α)
    (h : j ≠ k) : (l.set j b).getD k d = l.getD k d := by
  by_cases hk : k < l.length
  · rw [List.getD_eq_getElem _ _ (by simpa using hk),
      List.getD_eq_getElem _ _ hk]
    exact List.getElem_set_ne h _
  · rw [List.getD_eq_default _ _ (by simpa using Nat.le_of_not_lt hk),
      List.getD_eq_default _ _ (Nat.le_of_not_lt hk)]

theorem getD_replicate_false (n k : ℕ) :
    (List.replicate n false).getD k false = false := by
  by_cases h : k < n
  · rw [List.getD_eq_getElem _ _ (by simpa using h)]
    simp
  · exact List.getD_eq_default _ _ (by simpa using Nat.le_of_not_lt h)

theorem nodup_bounded_length (js : List ℕ) (n : ℕ) (h1 : js.Nodup)
    (h2 : ∀ j ∈ js, j < n) : js.length ≤ n := by
  have hsub : js.toFinset ⊆ Finset.range n := by
    intro j hj
    exact Finset.mem_range.mpr (h2 j (List.mem_toFinset.mp hj))
  have := Finset.card_le_card hsub
  rwa [List.toFinset_card_of_nodup h1, Finset.card_range] at this

/-! ## First-minimum index (`np.argmin`) -/

theorem argmin_lt_length (l : List ℝ) (h : l ≠ []) : argmin l < l.length := by
  induction l with
  | nil => exact absurd rfl h
  | cons x xs ih =>
    simp only [argmin]
    by_cases hxs : xs = []
    · simp [hxs]
    · rw [if_neg hxs]
      by_cases hle : x ≤ xs.getD (argmin xs) 0
      · rw [if_pos hle]; simp
      · rw [if_neg hle]
        simpa using Nat.succ_lt_succ (ih hxs)

theorem argmin_le_getD (l : List ℝ) : ∀ k, k < l.length →
    l.getD (argmin l) 0 ≤ l.getD k 0 := by
  induction l with
  | nil => intro k hk; simp at hk
  | cons x xs ih =>
    intro k hk
    simp only [argmin]
    by_cases hxs : xs = []
    · subst hxs
      simp only [List.length_cons, List.length_nil] at hk
      interval_cases k
      simp
    · rw [if_neg hxs]
      by_cases hle : x ≤ xs.getD (argmin xs) 0
      · rw [if_pos hle]
        match k with
        | 0 => simp
        | k + 1 =>
          simp only [List.getD_cons_zero, List.getD_cons_succ]
          exact le_trans hle (ih k (by simpa using hk))
      · rw [if_neg hle]
        push_neg at hle
        match k with
        | 0 =>
          simp only [List.getD_cons_zero, List.getD_cons_succ]
          exact le_of_lt hle
        | k + 1 =>
          simp only [List.getD_cons_succ]
          exact ih k (by simpa using hk)

theorem argmin_first (l : List ℝ) : ∀ k, k < argmin l →
    l.getD (argmin l) 0 < l.getD k 0 := by
  induction l with
  | nil => intro k hk; simp [argmin] at hk
  | cons x xs ih =>
    intro k hk
    simp only [argmin] at hk ⊢
    by_cases hxs : xs = []
    · rw [if_pos hxs] at hk; exact absurd hk (Nat.not_lt_zero k)
    · rw [if_neg hxs] at hk ⊢
      by_cases hle : x ≤ xs.getD (argmin xs) 0
      · rw [if_pos hle] at hk; exact absurd hk (Nat.not_lt_zero k)
      · rw [if_neg hle] at hk ⊢
        push_neg at hle
        match k with
        | 0 => simpa using hle
        | k + 1 =>
          simp only [List.getD_cons_succ]
          exact ih k (Nat.lt_of_succ_lt_succ hk)

theorem isFirstMin_argmin (l : List ℝ) (h : l ≠ []) : IsFirstMin l (argmin l) :=
  ⟨argmin_lt_length l h, argmin_le_getD l, argmin_first l⟩

theorem isFirstMin_unique (l : List ℝ) (j j' : ℕ) (h : IsFirstMin l j)
    (h' : IsFirstMin l j') : j = j' := by
  rcases lt_trichotomy j j' with hlt | heq | hgt
  · exact absurd (h'.2.2 j hlt) (not_lt.mpr (h.2.1 j' h'.1))
  · exact heq
  · exact absurd (h.2.2 j' hgt) (not_lt.mpr (h'.2.1 j h.1))

theorem firstMinIdx_eq_argmin (l : List ℝ) (h : l ≠ []) :
    firstMinIdx l = argmin l := by
  have hex : ∃ j, IsFirstMin l j := ⟨argmin l, isFirstMin_argmin l h⟩
  rw [firstMinIdx, dif_pos hex]
  exact isFirstMin_unique l _ _ hex.choose_spec (isFirstMin_argmin l h)

/-! ## The matching loop -/

theorem matchLoop_nil (Q : List Point) (tol : ℝ) (used : List Bool) :
    matchLoop Q tol [] used = ([], [], []) := rfl

theorem matchLoop_cons (Q : List Point) (tol : ℝ) (p : Point)
    (ps : List Point) (used : List Bool) :
    matchLoop Q tol (p :: ps) used =
      if used.getD (argmin (Q.map fun q => sqDist p q)) false then
        matchLoop Q tol ps used
      else if Real.sqrt ((Q.map fun q => sqDist p q).getD
          (argmin (Q.map fun q => sqDist p q)) 0) ≤ tol then
        (p :: (matchLoop Q tol ps
            (used.set (argmin (Q.map fun q => sqDist p q)) true)).1,
         Q.getD (argmin (Q.map fun q => sqDist p q)) ((0 : ℝ), (0 : ℝ)) ::
           (matchLoop Q tol ps
             (used.set (argmin (Q.map fun q => sqDist p q)) true)).2.1,
         Real.sqrt ((Q.map fun q => sqDist p q).getD
             (argmin (Q.map fun q => sqDist p q)) 0) ::
           (matchLoop Q tol ps
             (used.set (argmin (Q.map fun q => sqDist p q)) true)).2.2)
      else matchLoop Q tol ps used := rfl

theorem matchLoop_spec (Q : List Point) (tol : ℝ) (hQ : Q ≠ []) :
    ∀ (ps : List Point) (used : List Bool), used.length = Q.length →
      ∃ js : List ℕ,
        js.Nodup ∧
        (∀ j ∈ js, j < Q.length ∧ used.getD j false = false) ∧
        (matchLoop Q tol ps used).1.length = js.length ∧
        (matchLoop Q tol ps used).2.1 =
          js.map (fun j => Q.getD j ((0 : ℝ), (0 : ℝ))) ∧
        (matchLoop Q tol ps used).2.2.length = js.length ∧
        (matchLoop Q tol ps used).1.length ≤ ps.length := by
  intro ps
  induction ps with
  | nil =>
    intro used _
    exact ⟨[], by simp [matchLoop_nil]⟩
  | cons p ps ih =>
    intro used hlen
    have hd2ne : (Q.map fun q => sqDist p q) ≠ [] := by
      simpa using hQ
    have hjlt : argmin (Q.map fun q => sqDist p q) < Q.length := by
      have := argmin_lt_length _ hd2ne
      simpa using this
    rw [matchLoop_cons]
    by_cases hused : used.getD (argmin (Q.map fun q => sqDist p q)) false
    · rw [if_pos hused]
      obtain ⟨js, h1, h2, h3, h4, h5, h6⟩ := ih used hlen
      exact ⟨js, h1, h2, h3, h4, h5, le_trans h6 (Nat.le_succ _)⟩
    · rw [if_neg hused]
      by_cases htol : Real.sqrt ((Q.map fun q => sqDist p q).getD
          (argmin (Q.map fun q => sqDist p q)) 0) ≤ tol
      · rw [if_pos htol]
        obtain ⟨js, h1, h2, h3, h4, h5, h6⟩ :=
          ih (used.set (argmin (Q.map fun q => sqDist p q)) true)
            (by rw [List.length_set]; exact hlen)
        refine ⟨argmin (Q.map fun q => sqDist p q) :: js, ?_, ?_, ?_, ?_, ?_, ?_⟩
        · refine List.nodup_cons.mpr ⟨fun hmem => ?_, h1⟩
          have := (h2 _ hmem).2
          rw [getD_set_self used _ true false
            (by rw [hlen]; exact hjlt)] at this
          simp at this
        · intro j hj
          rcases List.mem_cons.mp hj with hj | hj
          · subst hj
            exact ⟨hjlt, Bool.not_eq_true _ ▸ (by simpa using hused)⟩
          · obtain ⟨hjq, hju⟩ := h2 j hj
            refine ⟨hjq, ?_⟩
            by_cases hne : argmin (Q.map fun q => sqDist p q) = j
            · subst hne
              rw [getD_set_self used _ true false
                (by rw [hlen]; exact hjlt)] at hju
              simp at hju
            · rwa [getD_set_ne used _ _ true false hne] at hju
        · simpa using h3
        · simpa using h4
        · simpa using h5
        · simpa using Nat.succ_le_succ h6
      · rw [if_neg htol]
        obtain ⟨js, h1, h2, h3, h4, h5, h6⟩ := ih used hlen
        exact ⟨js, h1, h2, h3, h4, h5, le_trans h6 (Nat.le_succ _)⟩

/-! ## Correspondence between `matchLoop` and the amended greedy matcher -/

theorem greedyNearestAll_cons (Q : List Point) (tol : ℝ) (p : Point)
    (ps : List Point) (consumed : Finset ℕ) :
    greedyNearestAll Q tol (p :: ps) consumed =
      if firstMinIdx (Q.map fun q => sqDist p q) ∈ consumed then
        greedyNearestAll Q tol ps consumed
      else if Real.sqrt (sqDist p (Q.getD
          (firstMinIdx (Q.map fun q => sqDist p q)) ((0 : ℝ), (0 : ℝ)))) ≤ tol then
        (p, Q.getD (firstMinIdx (Q.map fun q => sqDist p q)) ((0 : ℝ), (0 : ℝ)),
          Real.sqrt (sqDist p (Q.getD
            (firstMinIdx (Q.map fun q => sqDist p q)) ((0 : ℝ), (0 : ℝ))))) ::
          greedyNearestAll Q tol ps
            (insert (firstMinIdx (Q.map fun q => sqDist p q)) consumed)
      else greedyNearestAll Q tol ps consumed := rfl

theorem getD_map_sqDist (Q : List Point) (p : Point) (j : ℕ)
    (hj : j < Q.length) :
    (Q.map fun q => sqDist p q).getD j 0 =
      sqDist p (Q.getD j ((0 : ℝ), (0 : ℝ))) := by
  rw [List.getD_eq_getElem _ _ (by simpa using hj), List.getElem_map,
    List.getD_eq_getElem _ _ hj]

theorem matchLoop_eq_greedy (Q : List Point) (tol : ℝ) (hQ : Q ≠ []) :
    ∀ (ps : List Point) (used : List Bool) (consumed : Finset ℕ),
      used.length = Q.length →
      (∀ j, j < Q.length → (used.getD j false = true ↔ j ∈ consumed)) →
      matchLoop Q tol ps used =
        ((greedyNearestAll Q tol ps consumed).map fun t => t.1,
         (greedyNearestAll Q tol ps consumed).map fun t => t.2.1,
         (greedyNearestAll Q tol ps consumed).map fun t => t.2.2) := by
  intro ps
  induction ps with
  | nil =>
    intro used consumed _ _
    simp [matchLoop_nil, greedyNearestAll]
  | cons p ps ih =>
    intro used consumed hlen hinv
    have hd2ne : (Q.map fun q => sqDist p q) ≠ [] := by simpa using hQ
    have hjlt : argmin (Q.map fun q => sqDist p q) < Q.length := by
      have := argmin_lt_length _ hd2ne
      simpa using this
    have hfm : firstMinIdx (Q.map fun q => sqDist p q) =
        argmin (Q.map fun q => sqDist p q) := firstMinIdx_eq_argmin _ hd2ne
    have hgd := getD_map_sqDist Q p _ hjlt
    rw [matchLoop_cons, greedyNearestAll_cons, hfm, hgd]
    by_cases hin : argmin (Q.map fun q => sqDist p q) ∈ consumed
    · rw [if_pos ((hinv _ hjlt).mpr hin), if_pos hin]
      exact ih used consumed hlen hinv
    · have hfalse : ¬ (used.getD (argmin (Q.map fun q => sqDist p q)) false = true) :=
        fun h => hin ((hinv _ hjlt).mp h)
      rw [if_neg hfalse, if_neg hin]
      by_cases htol : Real.sqrt (sqDist p (Q.getD
          (argmin (Q.map fun q => sqDist p q)) ((0 : ℝ), (0 : ℝ)))) ≤ tol
      · rw [if_pos htol, if_pos htol]
        have hrec := ih (used.set (argmin (Q.map fun q => sqDist p q)) true)
          (insert (argmin (Q.map fun q => sqDist p q)) consumed)
          (by rw [List.length_set]; exact hlen)
          (by
            intro k hk
            by_cases hkj : argmin (Q.map fun q => sqDist p q) = k
            · subst hkj
              rw [getD_set_self used _ true false (by rw [hlen]; exact hjlt)]
              simp
            · rw [getD_set_ne used _ _ true false hkj]
              rw [hinv k hk, Finset.mem_insert]
              constructor
              · exact fun h => Or.inr h
              · rintro (h | h)
                · exact absurd h.symm hkj
                · exact h)
        rw [hrec]
        simp
      · rw [if_neg htol, if_neg htol]
        exact ih used consumed hlen hinv

theorem match_points_eq_amended_all (P Q : List Point) (tol : ℝ) :
    match_points P Q tol = match_points_amended P Q tol := by
  simp only [match_points, match_points_amended]
  by_cases hPQ : P.length = 0 ∨ Q.length = 0
  · rw [if_pos hPQ, if_pos hPQ]
  · rw [if_neg hPQ, if_neg hPQ]
    push_neg at hPQ
    have hQ : Q ≠ [] := by
      intro h
      exact hPQ.2 (by simp [h])
    have hcorr := matchLoop_eq_greedy Q tol hQ P (List.replicate Q.length false) ∅
      (by simp) (fun j _ => by simp [getD_replicate_false])
    rw [hcorr]
    simp only [List.length_map]

/-! ## Concrete evaluations for the claim C1 counterexample -/

theorem sqrt_four_eq_two : Real.sqrt 4 = 2 := by
  rw [show (4 : ℝ) = 2 ^ 2 by norm_num]
  exact Real.sqrt_sq (by norm_num)

theorem greedyNearestUnused_cons (Q : List Point) (tol : ℝ) (p : Point)
    (ps : List Point) (consumed : Finset ℕ) :
    greedyNearestUnused Q tol (p :: ps) consumed =
      if ((List.range Q.length).filter fun j => decide (j ∉ consumed)) = [] then
        greedyNearestUnused Q tol ps consumed
      else
        if Real.sqrt (sqDist p (Q.getD
            (((List.range Q.length).filter fun j => decide (j ∉ consumed)).getD
              (argmin (((List.range Q.length).filter fun j => decide (j ∉ consumed)).map
                fun k => sqDist p (Q.getD k ((0 : ℝ), (0 : ℝ))))) 0)
            ((0 : ℝ), (0 : ℝ)))) ≤ tol then
          (p, Q.getD
              (((List.range Q.length).filter fun j => decide (j ∉ consumed)).getD
                (argmin (((List.range Q.length).filter fun j => decide (j ∉ consumed)).map
                  fun k => sqDist p (Q.getD k ((0 : ℝ), (0 : ℝ))))) 0)
              ((0 : ℝ), (0 : ℝ)),
            Real.sqrt (sqDist p (Q.getD
              (((List.range Q.length).filter fun j => decide (j ∉ consumed)).getD
                (argmin (((List.range Q.length).filter fun j => decide (j ∉ consumed)).map
                  fun k => sqDist p (Q.getD k ((0 : ℝ), (0 : ℝ))))) 0)
              ((0 : ℝ), (0 : ℝ))))) ::
            greedyNearestUnused Q tol ps
              (insert (((List.range Q.length).filter fun j => decide (j ∉ consumed)).getD
                (argmin (((List.range Q.length).filter fun j => decide (j ∉ consumed)).map
                  fun k => sqDist p (Q.getD k ((0 : ℝ), (0 : ℝ))))) 0) consumed)
        else greedyNearestUnused Q tol ps consumed := rfl

theorem matchLoop_cex :
    matchLoop Qcex 6 Pcex [false, false] =
      ([((0 : ℝ), 0)], [((0 : ℝ), 0)], [Real.sqrt 0]) := by
  norm_num [Pcex, Qcex, matchLoop_cons, matchLoop_nil, argmin, sqDist,
    Real.sqrt_zero, List.getD_cons_zero, List.getD_cons_succ, List.set]

theorem match_points_cex :
    match_points Pcex Qcex 6 = ([((0 : ℝ), 0)], [((0 : ℝ), 0)], ((0 : ℝ) : EReal)) := by
  have hrep : List.replicate Qcex.length false = [false, false] := by
    norm_num [Qcex, List.replicate]
  simp only [match_points, hrep, matchLoop_cex]
  norm_num [Pcex, Qcex, Real.sqrt_zero]

theorem greedyNearestUnused_cex :
    greedyNearestUnused Qcex 6 Pcex ∅ =
      [(((0 : ℝ), 0), ((0 : ℝ), 0), (0 : ℝ)),
       (((1 : ℝ), 0), ((3 : ℝ), 0), (2 : ℝ))] := by
  have hfree0 : ((List.range Qcex.length).filter fun j =>
      decide (j ∉ (∅ : Finset ℕ))) = [0, 1] := by
    norm_num [Qcex, List.range_succ, List.filter_cons]
  have hvals0 : ([0, 1].map fun k =>
      sqDist ((0 : ℝ), 0) (Qcex.getD k ((0 : ℝ), (0 : ℝ)))) = [0, 9] := by
    norm_num [Qcex, sqDist]
  have ha0 : argmin [(0 : ℝ), 9] = 0 := by norm_num [argmin]
  have hq0 : Qcex.getD 0 ((0 : ℝ), (0 : ℝ)) = ((0 : ℝ), 0) := rfl
  have hq1 : Qcex.getD 1 ((0 : ℝ), (0 : ℝ)) = ((3 : ℝ), 0) := rfl
  have hsq00 : sqDist ((0 : ℝ), 0) ((0 : ℝ), 0) = 0 := by norm_num [sqDist]
  have hsq13 : sqDist ((1 : ℝ), 0) ((3 : ℝ), 0) = 4 := by norm_num [sqDist]
  show greedyNearestUnused Qcex 6 (((0 : ℝ), 0) :: [((1 : ℝ), 0)]) ∅ = _
  rw [greedyNearestUnused_cons, hfree0, hvals0, ha0]
  rw [if_neg (by simp : ¬([0, 1] = ([] : List ℕ)))]
  simp only [List.getD_cons_zero]
  rw [hq0, hsq00, Real.sqrt_zero]
  rw [if_pos (by norm_num : (0 : ℝ) ≤ 6)]
  have hfree1 : ((List.range Qcex.length).filter fun j =>
      decide (j ∉ (insert 0 (∅ : Finset ℕ)))) = [1] := by
    norm_num [Qcex, List.range_succ, List.filter_cons, Finset.mem_insert]
  have hvals1 : ([1].map fun k =>
      sqDist ((1 : ℝ), 0) (Qcex.getD k ((0 : ℝ), (0 : ℝ)))) = [4] := by
    norm_num [Qcex, sqDist]
  have ha1 : argmin [(4 : ℝ)] = 0 := by norm_num [argmin]
  rw [greedyNearestUnused_cons, hfree1, hvals1, ha1]
  rw [if_neg (by simp : ¬([1] = ([] : List ℕ)))]
  simp only [List.getD_cons_zero]
  rw [hq1, hsq13, sqrt_four_eq_two]
  rw [if_pos (by norm_num : (2 : ℝ) ≤ 6)]
  rfl

theorem match_points_claimed_cex :
    match_points_claimed Pcex Qcex 6 =
      ([((0 : ℝ), 0), ((1 : ℝ), 0)], [((0 : ℝ), 0), ((3 : ℝ), 0)],
        ((1 : ℝ) : EReal)) := by
  simp only [match_points_claimed, greedyNearestUnused_cex]
  norm_num [Pcex, Qcex]

/-! ## The angle grid (`np.arange`) -/

theorem arange_eq_grid (a0 step : ℝ) (n : ℕ) (h : (1e-6 : ℝ) ≤ step) :
    arange a0 (a0 + n * step + 1e-6) step =
      (List.range (n + 1)).map fun k => a0 + (k : ℝ) * step := by
  have hpos : (0 : ℝ) < step := lt_of_lt_of_le (by norm_num) h
  have hne : step ≠ 0 := ne_of_gt hpos
  have hdiv : (a0 + n * step + 1e-6 - a0) / step = (n : ℝ) + 1e-6 / step := by
    field_simp
    ring
  have hceil : ⌈(n : ℝ) + 1e-6 / step⌉ = (n : ℤ) + 1 := by
    have h1 : (0 : ℝ) < 1e-6 / step := div_pos (by norm_num) hpos
    have h2 : (1e-6 : ℝ) / step ≤ 1 := (div_le_one hpos).mpr h
    rw [add_comm, Int.ceil_add_nat]
    have hone : ⌈(1e-6 : ℝ) / step⌉ = 1 := by
      rw [Int.ceil_eq_iff]
      constructor
      · simpa using h1
      · simpa using h2
    rw [hone]
    ring
  rw [arange, hdiv, hceil]
  have htn : ((n : ℤ) + 1) = ((n + 1 : ℕ) : ℤ) := by push_cast; ring
  rw [htn, Int.toNat_natCast]

/-! ## Selection of the best rotation hypothesis -/

theorem stateLe_refl (x : ℤ × EReal × ℝ) : stateLe x x := Or.inr ⟨rfl, le_refl _⟩

theorem stateLe_trans {x y z : ℤ × EReal × ℝ} (h1 : stateLe x y)
    (h2 : stateLe y z) : stateLe x z := by
  rcases h1 with h1 | ⟨h1a, h1b⟩
  · rcases h2 with h2 | ⟨h2a, h2b⟩
    · exact Or.inl (lt_trans h1 h2)
    · exact Or.inl (h2a ▸ h1)
  · rcases h2 with h2 | ⟨h2a, h2b⟩
    · exact Or.inl (h1a ▸ h2)
    · exact Or.inr ⟨h1a.trans h2a, le_trans h2b h1b⟩

theorem stateLe_selectStep (b : ℤ × EReal × ℝ) (t : ℝ × ℕ × EReal) :
    stateLe b (selectStep b t) := by
  rw [selectStep]
  by_cases h : (t.2.1 : ℤ) > b.1 ∨ ((t.2.1 : ℤ) = b.1 ∧ t.2.2 < b.2.1)
  · rw [if_pos h]
    rcases h with h | ⟨h1, h2⟩
    · exact Or.inl h
    · exact Or.inr ⟨h1.symm, le_of_lt h2⟩
  · rw [if_neg h]
    exact stateLe_refl b

theorem entry_stateLe_selectStep (b : ℤ × EReal × ℝ) (t : ℝ × ℕ × EReal) :
    stateLe ((t.2.1 : ℤ), t.2.2, t.1) (selectStep b t) := by
  rw [selectStep]
  by_cases h : (t.2.1 : ℤ) > b.1 ∨ ((t.2.1 : ℤ) = b.1 ∧ t.2.2 < b.2.1)
  · rw [if_pos h]
    exact stateLe_refl _
  · rw [if_neg h]
    push_neg at h
    rcases lt_or_eq_of_le h.1 with hlt | heq
    · exact Or.inl hlt
    · exact Or.inr ⟨heq, h.2 heq⟩

theorem foldl_selectStep_le (l : List (ℝ × ℕ × EReal)) :
    ∀ b, stateLe b (l.foldl selectStep b) := by
  induction l with
  | nil => intro b; exact stateLe_refl b
  | cons t l ih =>
    intro b
    exact stateLe_trans (stateLe_selectStep b t) (ih (selectStep b t))

theorem foldl_selectStep_entry (l : List (ℝ × ℕ × EReal)) :
    ∀ b t, t ∈ l → stateLe ((t.2.1 : ℤ), t.2.2, t.1) (l.foldl selectStep b) := by
  induction l with
  | nil => intro b t ht; simp at ht
  | cons s l ih =>
    intro b t ht
    rcases List.mem_cons.mp ht with h | h
    · subst h
      exact stateLe_trans (entry_stateLe_selectStep b t) (foldl_selectStep_le l _)
    · exact ih (selectStep b s) t h

theorem foldl_selectStep_mem (l : List (ℝ × ℕ × EReal)) :
    ∀ b, l.foldl selectStep b = b ∨
      ∃ t ∈ l, l.foldl selectStep b = ((t.2.1 : ℤ), t.2.2, t.1) := by
  induction l with
  | nil => intro b; exact Or.inl rfl
  | cons s l ih =>
    intro b
    rcases ih (selectStep b s) with h | ⟨t, ht, h⟩
    · rw [List.foldl_cons, h, selectStep]
      by_cases hc : (s.2.1 : ℤ) > b.1 ∨ ((s.2.1 : ℤ) = b.1 ∧ s.2.2 < b.2.1)
      · rw [if_pos hc]
        exact Or.inr ⟨s, List.mem_cons_self s l, rfl⟩
      · rw [if_neg hc]
        exact Or.inl rfl
    · refine Or.inr ⟨t, List.mem_cons_of_mem s ht, ?_⟩
      rw [List.foldl_cons]
      exact h

theorem searchFold_eq_entry (trials : List (ℝ × ℕ × EReal))
    (hne : trials ≠ []) :
    ∃ t ∈ trials, searchFold trials = ((t.2.1 : ℤ), t.2.2, t.1) := by
  rcases foldl_selectStep_mem trials ((-1 : ℤ), (⊤ : EReal), (0 : ℝ)) with h | h
  · exfalso
    obtain ⟨t, ht⟩ := List.exists_mem_of_ne_nil trials hne
    have hdom := foldl_selectStep_entry trials ((-1 : ℤ), (⊤ : EReal), (0 : ℝ)) t ht
    rw [h] at hdom
    have hnn : (0 : ℤ) ≤ (t.2.1 : ℤ) := Int.natCast_nonneg _
    rcases hdom with h1 | ⟨h1, _⟩
    · omega
    · omega
  · exact h

theorem searchFold_optimal (trials : List (ℝ × ℕ × EReal))
    (t : ℝ × ℕ × EReal) (ht : t ∈ trials) :
    (t.2.1 : ℤ) ≤ (searchFold trials).1 ∧
      ((t.2.1 : ℤ) = (searchFold trials).1 →
        (searchFold trials).2.1 ≤ t.2.2) := by
  have hdom := foldl_selectStep_entry trials ((-1 : ℤ), (⊤ : EReal), (0 : ℝ)) t ht
  rw [show trials.foldl selectStep ((-1 : ℤ), (⊤ : EReal), (0 : ℝ)) =
    searchFold trials from rfl] at hdom
  rcases hdom with h1 | ⟨h1, h2⟩
  · exact ⟨le_of_lt h1, fun he => absurd (he ▸ h1) (lt_irrefl _)⟩
  · exact ⟨le_of_eq h1, fun _ => h2⟩

/-! ## Centre estimation -/

theorem estimate_center_degenerate (P Q : List Point) (θ : ℝ)
    (h : |rotDet θ| < 1e-6) :
    estimate_center_from_pairs P Q θ = (((0 : ℝ), (0 : ℝ)), false) := by
  rw [estimate_center_from_pairs, if_pos h]

theorem estimate_center_nondegenerate (P Q : List Point) (θ : ℝ)
    (h : ¬ |rotDet θ| < 1e-6) :
    estimate_center_from_pairs P Q θ =
      ((medianR ((List.zipWith (pairSolution θ) P Q).map Prod.fst),
        medianR ((List.zipWith (pairSolution θ) P Q).map Prod.snd)), true) := by
  rw [estimate_center_from_pairs, if_neg h]

theorem pairSolution_solves (θ : ℝ) (p q : Point) (h : rotDet θ ≠ 0) :
    (1 - Real.cos (deg2rad θ)) * (pairSolution θ p q).1 +
      Real.sin (deg2rad θ) * (pairSolution θ p q).2 =
      q.1 - (Real.cos (deg2rad θ) * p.1 - Real.sin (deg2rad θ) * p.2) ∧
    (-(Real.sin (deg2rad θ))) * (pairSolution θ p q).1 +
      (1 - Real.cos (deg2rad θ)) * (pairSolution θ p q).2 =
      q.2 - (Real.sin (deg2rad θ) * p.1 + Real.cos (deg2rad θ) * p.2) := by
  have hD : rotDet θ = (1 - Real.cos (deg2rad θ)) * (1 - Real.cos (deg2rad θ)) +
      Real.sin (deg2rad θ) * Real.sin (deg2rad θ) := by
    rw [rotDet]
    ring
  have h' : (1 - Real.cos (deg2rad θ)) * (1 - Real.cos (deg2rad θ)) +
      Real.sin (deg2rad θ) * Real.sin (deg2rad θ) ≠ 0 := by
    rw [← hD]
    exact h
  rw [pairSolution, hD]
  dsimp only
  constructor
  · field_simp
    ring
  · field_simp
    ring

/-! ## Angular error converter -/

theorem plate_scale_pos (pixel focal : ℝ) (hp : 0 < pixel) (hf : 0 < focal) :
    0 < plate_scale_arcsec_per_px pixel focal := by
  have hcond : ¬(focal ≤ 0 ∨ pixel ≤ 0) := by
    push_neg
    exact ⟨hf, hp⟩
  rw [plate_scale_arcsec_per_px, if_neg hcond]
  positivity

theorem plate_scale_invalid (pixel focal : ℝ) (h : pixel ≤ 0 ∨ focal ≤ 0) :
    plate_scale_arcsec_per_px pixel focal = 0 := by
  rw [plate_scale_arcsec_per_px, if_pos (Or.symm h)]

/-! ## Detector structure -/

theorem mem_insertByGe (x y : (ℕ × ℕ) × ℝ) (l : List ((ℕ × ℕ) × ℝ)) :
    y ∈ insertByGe x l ↔ y = x ∨ y ∈ l := by
  induction l with
  | nil => simp [insertByGe]
  | cons z l ih =>
    rw [insertByGe]
    by_cases h : z.2 ≤ x.2
    · rw [if_pos h]
      simp
    · rw [if_neg h]
      simp only [List.mem_cons, ih]
      tauto

theorem sorted_insertByGe (x : (ℕ × ℕ) × ℝ) (l : List ((ℕ × ℕ) × ℝ))
    (hl : l.Pairwise fun a b => b.2 ≤ a.2) :
    (insertByGe x l).Pairwise fun a b => b.2 ≤ a.2 := by
  induction l with
  | nil => simp [insertByGe]
  | cons z l ih =>
    rw [insertByGe]
    rcases List.pairwise_cons.mp hl with ⟨hz, hl2⟩
    by_cases h : z.2 ≤ x.2
    · rw [if_pos h]
      refine List.pairwise_cons.mpr ⟨?_, hl⟩
      intro b hb
      rcases List.mem_cons.mp hb with rfl | hb
      · exact h
      · exact le_trans (hz b hb) h
    · rw [if_neg h]
      refine List.pairwise_cons.mpr ⟨?_, ih hl2⟩
      intro b hb
      rcases (mem_insertByGe x b l).mp hb with rfl | hb
      · exact le_of_not_le h
      · exact hz b hb

theorem sortByValDesc_sorted (l : List ((ℕ × ℕ) × ℝ)) :
    (sortByValDesc l).Pairwise fun a b => b.2 ≤ a.2 := by
  induction l with
  | nil => simp [sortByValDesc]
  | cons x l ih =>
    show (insertByGe x (sortByValDesc l)).Pairwise fun a b => b.2 ≤ a.2
    exact sorted_insertByGe x _ ih

theorem mem_interiorIdx (H W i j : ℕ) :
    (i, j) ∈ interiorIdx H W ↔ i + 2 < H ∧ j + 2 < W := by
  simp only [interiorIdx, List.mem_flatMap, List.mem_map, List.mem_range,
    Prod.mk.injEq]
  constructor
  · rintro ⟨a, ha, b, hb, rfl, rfl⟩
    omega
  · rintro ⟨h1, h2⟩
    exact ⟨i, by omega, j, by omega, rfl, rfl⟩

theorem mem_maximaCoords (img : Image) (thr : ℝ) (i j : ℕ) :
    (i, j) ∈ maximaCoords img thr ↔
      i + 2 < img.H ∧ j + 2 < img.W ∧
      img.pix (i+1) (j+1) > thr ∧
      img.pix (i+1) (j+1) ≥ img.pix i j ∧
      img.pix (i+1) (j+1) ≥ img.pix i (j+1) ∧
      img.pix (i+1) (j+1) ≥ img.pix i (j+2) ∧
      img.pix (i+1) (j+1) ≥ img.pix (i+1) j ∧
      img.pix (i+1) (j+1) ≥ img.pix (i+1) (j+2) ∧
      img.pix (i+1) (j+1) ≥ img.pix (i+2) j ∧
      img.pix (i+1) (j+1) ≥ img.pix (i+2) (j+1) ∧
      img.pix (i+1) (j+1) ≥ img.pix (i+2) (j+2) := by
  rw [maximaCoords, List.mem_filter, mem_interiorIdx]
  simp only [localMaxB, decide_eq_true_eq]
  tauto

theorem detect_stars_take (img : Image) (mp : ℕ) :
    detect_stars img mp =
      ((sortByValDesc (candPairs img (imgMean img + 3.0 * imgStd img))).take mp).map
        fun t => (((t.1.2 + 1 : ℕ) : ℝ), ((t.1.1 + 1 : ℕ) : ℝ)) := rfl

theorem detect_stars_length_le (img : Image) (mp : ℕ) :
    (detect_stars img mp).length ≤ mp := by
  rw [detect_stars_take, List.length_map, List.length_take]
  exact min_le_left _ _

/-! ## Evaluation on the all-black 3×3 frame -/

theorem imgMean_zero3 : imgMean zero3 = 0 := by
  simp [imgMean, imgSum, zero3]

theorem imgStd_zero3 : imgStd zero3 = 0 := by
  simp [imgStd, imgVar, zero3, imgMean_zero3, Real.sqrt_zero, imgMean, imgSum]

theorem detect_zero3 : detect_stars zero3 220 = [] := by
  have hlm : localMaxB zero3 0 0 0 = false := by
    rw [localMaxB]
    simp only [decide_eq_false_iff_not]
    norm_num [zero3]
  have hcand : maximaCoords zero3 (imgMean zero3 + 3.0 * imgStd zero3) = [] := by
    rw [imgMean_zero3, imgStd_zero3]
    rw [show (0 : ℝ) + 3.0 * 0 = 0 by norm_num]
    rw [maximaCoords]
    have hint : interiorIdx zero3.H zero3.W = [(0, 0)] := by
      norm_num [interiorIdx, zero3, List.range_succ]
    rw [hint]
    simp [List.filter_cons, hlm]
  rw [detect_stars, _local_maxima_points, candPairs, hcand]
  rfl

/-! ## Branch analysis of the orchestrator -/

theorem solve_few_stars (img1 img2 : Image) (sd : ℝ × ℝ) (st tol : ℝ) (mp : ℕ)
    (h : (detect_stars img1 mp).length < 12 ∨ (detect_stars img2 mp).length < 12) :
    solve_polar_two_step img1 img2 sd st tol mp =
      { ok := false, angle_deg := 0, center_xy := imgCenter img1,
        offset_xy := (0, 0), nmatches := 0, mean_error_px := ((0 : ℝ) : EReal),
        total_error_px := 0,
        message := "Pocas estrellas (img1=" ++
          toString (detect_stars img1 mp).length ++ ", img2=" ++
          toString (detect_stars img2 mp).length ++ "). Sube expo/gain." } := by
  simp only [solve_polar_two_step]
  rw [if_pos h]

theorem solve_insufficient (img1 img2 : Image) (sd : ℝ × ℝ) (st tol : ℝ) (mp : ℕ)
    (h12 : ¬((detect_stars img1 mp).length < 12 ∨ (detect_stars img2 mp).length < 12))
    (hb : (solverBest img1 img2 sd st tol mp).1 < 8) :
    solve_polar_two_step img1 img2 sd st tol mp =
      { ok := false, angle_deg := (solverBest img1 img2 sd st tol mp).2.2,
        center_xy := imgCenter img1, offset_xy := (0, 0),
        nmatches := (solverBest img1 img2 sd st tol mp).1,
        mean_error_px := (solverBest img1 img2 sd st tol mp).2.1,
        total_error_px := 0,
        message := "No hay matches suficientes. Gira RA 60–90° y sube expo/gain." } := by
  simp only [solve_polar_two_step]
  rw [if_neg h12, if_pos hb]

theorem solve_rematch_small (img1 img2 : Image) (sd : ℝ × ℝ) (st tol : ℝ) (mp : ℕ)
    (h12 : ¬((detect_stars img1 mp).length < 12 ∨ (detect_stars img2 mp).length < 12))
    (hb : ¬(solverBest img1 img2 sd st tol mp).1 < 8)
    (hr : (solverRematch img1 img2 sd st tol mp).1.length < 8) :
    solve_polar_two_step img1 img2 sd st tol mp =
      { ok := false, angle_deg := (solverBest img1 img2 sd st tol mp).2.2,
        center_xy := imgCenter img1, offset_xy := (0, 0),
        nmatches := ((solverRematch img1 img2 sd st tol mp).1.length : ℤ),
        mean_error_px := (solverRematch img1 img2 sd st tol mp).2.2,
        total_error_px := 0,
        message := "Matching insuficiente. Ajusta tol_px o mejora capturas." } := by
  simp only [solve_polar_two_step]
  rw [if_neg h12, if_neg hb, if_pos hr]

theorem solve_degenerate (img1 img2 : Image) (sd : ℝ × ℝ) (st tol : ℝ) (mp : ℕ)
    (h12 : ¬((detect_stars img1 mp).length < 12 ∨ (detect_stars img2 mp).length < 12))
    (hb : ¬(solverBest img1 img2 sd st tol mp).1 < 8)
    (hr : ¬(solverRematch img1 img2 sd st tol mp).1.length < 8)
    (hce : (estimate_center_from_pairs (solverRematch img1 img2 sd st tol mp).1
      (solverRematch img1 img2 sd st tol mp).2.1
      (solverBest img1 img2 sd st tol mp).2.2).2 = false) :
    solve_polar_two_step img1 img2 sd st tol mp =
      { ok := false, angle_deg := (solverBest img1 img2 sd st tol mp).2.2,
        center_xy := imgCenter img1, offset_xy := (0, 0),
        nmatches := ((solverRematch img1 img2 sd st tol mp).1.length : ℤ),
        mean_error_px := (solverRematch img1 img2 sd st tol mp).2.2,
        total_error_px := 0,
        message := "No se pudo estimar el centro (degenerado)." } := by
  simp only [solve_polar_two_step]
  rw [if_neg h12, if_neg hb, if_neg hr, if_pos hce]

theorem solve_success (img1 img2 : Image) (sd : ℝ × ℝ) (st tol : ℝ) (mp : ℕ)
    (h12 : ¬((detect_stars img1 mp).length < 12 ∨ (detect_stars img2 mp).length < 12))
    (hb : ¬(solverBest img1 img2 sd st tol mp).1 < 8)
    (hr : ¬(solverRematch img1 img2 sd st tol mp).1.length < 8)
    (hce : ¬(estimate_center_from_pairs (solverRematch img1 img2 sd st tol mp).1
      (solverRematch img1 img2 sd st tol mp).2.1
      (solverBest img1 img2 sd st tol mp).2.2).2 = false) :
    solve_polar_two_step img1 img2 sd st tol mp =
      { ok := true, angle_deg := (solverBest img1 img2 sd st tol mp).2.2,
        center_xy := (estimate_center_from_pairs
          (solverRematch img1 img2 sd st tol mp).1
          (solverRematch img1 img2 sd st tol mp).2.1
          (solverBest img1 img2 sd st tol mp).2.2).1,
        offset_xy := ((estimate_center_from_pairs
            (solverRematch img1 img2 sd st tol mp).1
            (solverRematch img1 img2 sd st tol mp).2.1
            (solverBest img1 img2 sd st tol mp).2.2).1.1 - (imgCenter img1).1,
          (estimate_center_from_pairs
            (solverRematch img1 img2 sd st tol mp).1
            (solverRematch img1 img2 sd st tol mp).2.1
            (solverBest img1 img2 sd st tol mp).2.2).1.2 - (imgCenter img1).2),
        nmatches := ((solverRematch img1 img2 sd st tol mp).1.length : ℤ),
        mean_error_px := (solverRematch img1 img2 sd st tol mp).2.2,
        total_error_px := Real.sqrt
          (((estimate_center_from_pairs
              (solverRematch img1 img2 sd st tol mp).1
              (solverRematch img1 img2 sd st tol mp).2.1
              (solverBest img1 img2 sd st tol mp).2.2).1.1 - (imgCenter img1).1) *
            ((estimate_center_from_pairs
              (solverRematch img1 img2 sd st tol mp).1
              (solverRematch img1 img2 sd st tol mp).2.1
              (solverBest img1 img2 sd st tol mp).2.2).1.1 - (imgCenter img1).1) +
          ((estimate_center_from_pairs
              (solverRematch img1 img2 sd st tol mp).1
              (solverRematch img1 img2 sd st tol mp).2.1
              (solverBest img1 img2 sd st tol mp).2.2).1.2 - (imgCenter img1).2) *
            ((estimate_center_from_pairs
              (solverRematch img1 img2 sd st tol mp).1
              (solverRematch img1 img2 sd st tol mp).2.1
              (solverBest img1 img2 sd st tol mp).2.2).1.2 - (imgCenter img1).2)),
        message := "OK. Centro de rotación estimado." } := by
  simp only [solve_polar_two_step]
  rw [if_neg h12, if_neg hb, if_neg hr, if_neg hce]

theorem solverRematch_length (img1 img2 : Image) (sd : ℝ × ℝ) (st tol : ℝ)
    (mp : ℕ) (h8 : 8 ≤ (solverBest img1 img2 sd st tol mp).1) :
    ((solverRematch img1 img2 sd st tol mp).1.length : ℤ) =
      (solverBest img1 img2 sd st tol mp).1 := by
  have hne : solveTrials (detect_stars img1 mp) (detect_stars img2 mp)
      (imgCenter img1) tol (arange sd.1 (sd.2 + 1e-6) st) ≠ [] := by
    intro hnil
    rw [solverBest, hnil] at h8
    simp [searchFold] at h8
  obtain ⟨t, ht, heq⟩ := searchFold_eq_entry _ hne
  rw [solveTrials] at ht
  obtain ⟨a, _, rfl⟩ := List.mem_map.mp ht
  have hbest : solverBest img1 img2 sd st tol mp =
      (((match_points (rotate_points (detect_stars img1 mp) (imgCenter img1) a)
          (detect_stars img2 mp) tol).1.length : ℤ),
        (match_points (rotate_points (detect_stars img1 mp) (imgCenter img1) a)
          (detect_stars img2 mp) tol).2.2, a) := by
    rw [solverBest]
    exact heq
  rw [solverRematch, hbest]

/-! ## Claim theorems -/

/-- C1 (counterexample): on `P = [(0,0), (1,0)]`, `Q = [(0,0), (3,0)]` and
tolerance `6`, the source matcher accepts a single pair — the point `(1,0)`
is skipped because its globally nearest neighbour `(0,0)` is already
consumed — whereas the matcher described by the claim (nearest
*not-yet-used* point, skip only when no unused point is within tolerance)
would also accept `((1,0), (3,0))` at distance `2 ≤ 6`.  Hence the claim,
read as a description of `match_points`, is false. -/
theorem match_points_nearest_unused_cex :
    (match_points Pcex Qcex 6).1.length = 1 ∧
    (match_points_claimed Pcex Qcex 6).1.length = 2 ∧
    match_points Pcex Qcex 6 ≠ match_points_claimed Pcex Qcex 6 := by
  refine ⟨?_, ?_, ?_⟩
  · rw [match_points_cex]
    rfl
  · rw [match_points_claimed_cex]
    rfl
  · rw [match_points_cex, match_points_claimed_cex]
    intro h
    have hlen := congrArg (fun t => t.1.length) h
    simp at hlen

/-- C1 (amended): `match_points` iterates the points of `P` in their
original order and, for each one, locates the globally nearest point of `Q`
(consumed or not) by squared Euclidean distance (first index on ties); if
that point is already consumed the `P` point is skipped — even when another
unused `Q` point lies within tolerance — and otherwise the pair is accepted
exactly when the distance is at most `tol_px`, marking the `Q` point
consumed. -/
theorem match_points_amended_correct (P Q : List Point) (tol : ℝ) :
    match_points P Q tol = match_points_amended P Q tol :=
  match_points_eq_amended_all P Q tol

/-- C1 (amended, witness): the correspondence instantiated at the
counterexample input. -/
theorem match_points_amended_correct_witness :
    match_points Pcex Qcex 6 = match_points_amended Pcex Qcex 6 :=
  match_points_amended_correct Pcex Qcex 6

/-- C2: for a positive step (at least the `1e-6` epsilon the source adds to
the stop value) and an endpoint `a1 = a0 + n·step` on the grid, the angle
sweep evaluates exactly the candidates `a0, a0+step, …, a1` (both endpoints
included), and the selected best state carries the angle of one of the
trials, its match count and mean error, such that every candidate angle has
a match count at most the selected one, and any candidate attaining the
selected match count has mean error at least the selected one (higher match
count wins, ties broken by lower mean error). -/
theorem angle_search_grid_and_selection (a0 a1 step tol : ℝ) (n : ℕ)
    (P1 P2 : List Point) (center : Point)
    (hstep : (1e-6 : ℝ) ≤ step) (hgrid : a1 = a0 + n * step) :
    arange a0 (a1 + 1e-6) step =
      (List.range (n + 1)).map (fun k => a0 + (k : ℝ) * step) ∧
    (searchFold (solveTrials P1 P2 center tol (arange a0 (a1 + 1e-6) step))).2.2 ∈
      arange a0 (a1 + 1e-6) step ∧
    (searchFold (solveTrials P1 P2 center tol (arange a0 (a1 + 1e-6) step))).1 =
      ((match_points (rotate_points P1 center
        (searchFold (solveTrials P1 P2 center tol
          (arange a0 (a1 + 1e-6) step))).2.2) P2 tol).1.length : ℤ) ∧
    (searchFold (solveTrials P1 P2 center tol (arange a0 (a1 + 1e-6) step))).2.1 =
      (match_points (rotate_points P1 center
        (searchFold (solveTrials P1 P2 center tol
          (arange a0 (a1 + 1e-6) step))).2.2) P2 tol).2.2 ∧
    ∀ a ∈ arange a0 (a1 + 1e-6) step,
      ((match_points (rotate_points P1 center a) P2 tol).1.length : ℤ) ≤
        (searchFold (solveTrials P1 P2 center tol (arange a0 (a1 + 1e-6) step))).1 ∧
      (((match_points (rotate_points P1 center a) P2 tol).1.length : ℤ) =
          (searchFold (solveTrials P1 P2 center tol (arange a0 (a1 + 1e-6) step))).1 →
        (searchFold (solveTrials P1 P2 center tol (arange a0 (a1 + 1e-6) step))).2.1 ≤
          (match_points (rotate_points P1 center a) P2 tol).2.2) := by
  subst hgrid
  have hgrideq := arange_eq_grid a0 step n hstep
  have hanne : arange a0 (a0 + n * step + 1e-6) step ≠ [] := by
    rw [hgrideq]
    simp
    exact ⟨0, by omega⟩
  have htrialsne : solveTrials P1 P2 center tol
      (arange a0 (a0 + n * step + 1e-6) step) ≠ [] := by
    rw [solveTrials]
    simpa using hanne
  obtain ⟨t, ht, heq⟩ := searchFold_eq_entry _ htrialsne
  rw [solveTrials] at ht
  obtain ⟨b, hb, rfl⟩ := List.mem_map.mp ht
  refine ⟨hgrideq, ?_, ?_, ?_, ?_⟩
  · rw [heq]
    exact hb
  · rw [heq]
  · rw [heq]
  · intro a ha
    have hmem : (a, (match_points (rotate_points P1 center a) P2 tol).1.length,
        (match_points (rotate_points P1 center a) P2 tol).2.2) ∈
        solveTrials P1 P2 center tol (arange a0 (a0 + n * step + 1e-6) step) := by
      rw [solveTrials]
      exact List.mem_map.mpr ⟨a, ha, rfl⟩
    exact searchFold_optimal _ _ hmem

/-- C2 (witness): the grid and selection property instantiated on the grid
`35°, 36°, 37°` with empty point sets. -/
theorem angle_search_grid_and_selection_witness :
    ((1e-6 : ℝ) ≤ 1) ∧ ((37 : ℝ) = 35 + (2 : ℕ) * 1) ∧
    arange 35 ((37 : ℝ) + 1e-6) 1 =
      (List.range (2 + 1)).map (fun k => (35 : ℝ) + (k : ℝ) * 1) ∧
    (searchFold (solveTrials [] [] ((0 : ℝ), 0) 7
      (arange 35 ((37 : ℝ) + 1e-6) 1))).2.2 ∈ arange 35 ((37 : ℝ) + 1e-6) 1 := by
  have h := angle_search_grid_and_selection 35 37 1 7 2 [] [] ((0 : ℝ), 0)
    (by norm_num) (by norm_num)
  exact ⟨by norm_num, by norm_num, h.1, h.2.1⟩

/-- C3: when `|det(I − R(θ))| < 1e-6` the centre estimator reports failure
`((0,0), false)` without computing a centre; otherwise it returns `ok = true`
together with the component-wise median of the per-pair solutions, each of
which exactly solves its own 2×2 linear system
`(I − R(θ))·C = q − R(θ)·p`. -/
theorem estimate_center_spec (P Q : List Point) (θ : ℝ) :
    (|rotDet θ| < 1e-6 →
      estimate_center_from_pairs P Q θ = (((0 : ℝ), (0 : ℝ)), false)) ∧
    (¬ |rotDet θ| < 1e-6 →
      estimate_center_from_pairs P Q θ =
        ((medianR ((List.zipWith (pairSolution θ) P Q).map Prod.fst),
          medianR ((List.zipWith (pairSolution θ) P Q).map Prod.snd)), true) ∧
      ∀ p q : Point,
        (1 - Real.cos (deg2rad θ)) * (pairSolution θ p q).1 +
          Real.sin (deg2rad θ) * (pairSolution θ p q).2 =
          q.1 - (Real.cos (deg2rad θ) * p.1 - Real.sin (deg2rad θ) * p.2) ∧
        (-(Real.sin (deg2rad θ))) * (pairSolution θ p q).1 +
          (1 - Real.cos (deg2rad θ)) * (pairSolution θ p q).2 =
          q.2 - (Real.sin (deg2rad θ) * p.1 + Real.cos (deg2rad θ) * p.2)) := by
  refine ⟨estimate_center_degenerate P Q θ, fun h =>
    ⟨estimate_center_nondegenerate P Q θ h, fun p q =>
      pairSolution_solves θ p q ?_⟩⟩
  intro h0
  apply h
  rw [h0]
  norm_num

/-- C3 (witness): at `θ = 90°` the determinant is `2`, well clear of the
degeneracy threshold, and the estimator succeeds. -/
theorem estimate_center_spec_witness :
    ¬ |rotDet 90| < 1e-6 ∧
    (estimate_center_from_pairs [((1 : ℝ), 2)] [((3 : ℝ), 4)] 90).2 = true := by
  have hdet : rotDet (90 : ℝ) = 2 := by
    rw [rotDet]
    have h90 : deg2rad (90 : ℝ) = Real.pi / 2 := by
      rw [deg2rad]
      ring
    rw [h90, Real.cos_pi_div_two, Real.sin_pi_div_two]
    norm_num
  have hnd : ¬ |rotDet (90 : ℝ)| < 1e-6 := by
    rw [hdet]
    norm_num
  refine ⟨hnd, ?_⟩
  rw [((estimate_center_spec [((1 : ℝ), 2)] [((3 : ℝ), 4)] 90).2 hnd).1]

/-- C4: the orchestrator returns a tagged failure result (`ok = false` with
the corresponding descriptive message) when either image yields fewer than
12 detected stars, or when the best angle of the sweep yields fewer than 8
matches; otherwise the re-matching at the best angle again has at least 8
pairs and the solver proceeds to centre estimation, whose outcome (failure
tag or success) determines the result. -/
theorem solver_failure_gates (img1 img2 : Image) (sd : ℝ × ℝ) (st tol : ℝ)
    (mp : ℕ) :
    ((detect_stars img1 mp).length < 12 ∨ (detect_stars img2 mp).length < 12 →
      (solve_polar_two_step img1 img2 sd st tol mp).ok = false ∧
      (solve_polar_two_step img1 img2 sd st tol mp).message =
        "Pocas estrellas (img1=" ++ toString (detect_stars img1 mp).length ++
        ", img2=" ++ toString (detect_stars img2 mp).length ++
        "). Sube expo/gain.") ∧
    (¬((detect_stars img1 mp).length < 12 ∨ (detect_stars img2 mp).length < 12) →
      (solverBest img1 img2 sd st tol mp).1 < 8 →
      (solve_polar_two_step img1 img2 sd st tol mp).ok = false ∧
      (solve_polar_two_step img1 img2 sd st tol mp).message =
        "No hay matches suficientes. Gira RA 60–90° y sube expo/gain.") ∧
    (¬((detect_stars img1 mp).length < 12 ∨ (detect_stars img2 mp).length < 12) →
      8 ≤ (solverBest img1 img2 sd st tol mp).1 →
      8 ≤ (solverRematch img1 img2 sd st tol mp).1.length ∧
      ((estimate_center_from_pairs (solverRematch img1 img2 sd st tol mp).1
          (solverRematch img1 img2 sd st tol mp).2.1
          (solverBest img1 img2 sd st tol mp).2.2).2 = false →
        (solve_polar_two_step img1 img2 sd st tol mp).ok = false ∧
        (solve_polar_two_step img1 img2 sd st tol mp).message =
          "No se pudo estimar el centro (degenerado).") ∧
      ((estimate_center_from_pairs (solverRematch img1 img2 sd st tol mp).1
          (solverRematch img1 img2 sd st tol mp).2.1
          (solverBest img1 img2 sd st tol mp).2.2).2 = true →
        (solve_polar_two_step img1 img2 sd st tol mp).ok = true ∧
        (solve_polar_two_step img1 img2 sd st tol mp).center_xy =
          (estimate_center_from_pairs (solverRematch img1 img2 sd st tol mp).1
            (solverRematch img1 img2 sd st tol mp).2.1
            (solverBest img1 img2 sd st tol mp).2.2).1 ∧
        (solve_polar_two_step img1 img2 sd st tol mp).message =
          "OK. Centro de rotación estimado.")) := by
  refine ⟨?_, ?_, ?_⟩
  · intro h
    rw [solve_few_stars img1 img2 sd st tol mp h]
    exact ⟨rfl, rfl⟩
  · intro h12 hb
    rw [solve_insufficient img1 img2 sd st tol mp h12 hb]
    exact ⟨rfl, rfl⟩
  · intro h12 h8
    have hlen : ((solverRematch img1 img2 sd st tol mp).1.length : ℤ) =
        (solverBest img1 img2 sd st tol mp).1 :=
      solverRematch_length img1 img2 sd st tol mp h8
    have hr8 : 8 ≤ (solverRematch img1 img2 sd st tol mp).1.length := by
      have := h8
      rw [← hlen] at this
      exact_mod_cast this
    have hb : ¬(solverBest img1 img2 sd st tol mp).1 < 8 := not_lt.mpr h8
    have hr : ¬(solverRematch img1 img2 sd st tol mp).1.length < 8 :=
      not_lt.mpr hr8
    refine ⟨hr8, ?_, ?_⟩
    · intro hce
      rw [solve_degenerate img1 img2 sd st tol mp h12 hb hr hce]
      exact ⟨rfl, rfl⟩
    · intro hce
      have hce' : ¬(estimate_center_from_pairs
          (solverRematch img1 img2 sd st tol mp).1
          (solverRematch img1 img2 sd st tol mp).2.1
          (solverBest img1 img2 sd st tol mp).2.2).2 = false := by
        rw [hce]
        simp
      rw [solve_success img1 img2 sd st tol mp h12 hb hr hce']
      exact ⟨rfl, rfl, rfl⟩

/-- C4 (witness): two all-black 3×3 frames detect no stars, so the solver
fails fast with the few-stars tag. -/
theorem solver_failure_gates_witness :
    ((detect_stars zero3 220).length < 12 ∨
      (detect_stars zero3 220).length < 12) ∧
    (solve_polar_two_step zero3 zero3 ((35 : ℝ), 145) 1 7 220).ok = false := by
  have hlen : (detect_stars zero3 220).length < 12 := by
    rw [detect_zero3]
    norm_num
  exact ⟨Or.inl hlen,
    ((solver_failure_gates zero3 zero3 ((35 : ℝ), 145) 1 7 220).1
      (Or.inl hlen)).1⟩

/-- C5: for a positive pixel size and focal length, the converter succeeds
and maps the rotated offset `(dxr, dyr)` (the north-orientation rotation
applied to `(dx, dy)`) to azimuth error `+dxr·scale` and altitude error
`−dyr·scale` (image `+y` points down, hence the sign flip). -/
theorem converter_axis_convention (dx dy pixel focal : ℝ) (o : String)
    (hp : 0 < pixel) (hf : 0 < focal) :
    (convert_px_to_alt_azi dx dy pixel focal o).ok = true ∧
    (convert_px_to_alt_azi dx dy pixel focal o).azi_arcsec =
      (rotVec dx dy (northRotDeg o)).1 * plate_scale_arcsec_per_px pixel focal ∧
    (convert_px_to_alt_azi dx dy pixel focal o).alt_arcsec =
      -((rotVec dx dy (northRotDeg o)).2) * plate_scale_arcsec_per_px pixel focal := by
  have hs : ¬ plate_scale_arcsec_per_px pixel focal ≤ 0 :=
    not_le.mpr (plate_scale_pos pixel focal hp hf)
  simp only [convert_px_to_alt_azi, if_neg hs]
  refine ⟨by trivial, ?_, ?_⟩
  · ring_nf
  · ring_nf

/-- C5 (witness): a pure-x offset of 100 px at 2 µm / 700 mm succeeds. -/
theorem converter_axis_convention_witness :
    ((0 : ℝ) < 2) ∧ ((0 : ℝ) < 700) ∧
    (convert_px_to_alt_azi 100 0 2 700 "N_ARRIBA").ok = true :=
  ⟨by norm_num, by norm_num,
    (converter_axis_convention 100 0 2 700 "N_ARRIBA" (by norm_num)
      (by norm_num)).1⟩

/-- C6: for a non-positive pixel size or focal length the converter returns
`ok = false` with a non-empty guidance message, and all numeric error fields
are exactly zero (finite; no division is performed). -/
theorem converter_invalid_optics (dx dy pixel focal : ℝ) (o : String)
    (h : pixel ≤ 0 ∨ focal ≤ 0) :
    (convert_px_to_alt_azi dx dy pixel focal o).ok = false ∧
    (convert_px_to_alt_azi dx dy pixel focal o).message ≠ "" ∧
    (convert_px_to_alt_azi dx dy pixel focal o).azi_arcsec = 0 ∧
    (convert_px_to_alt_azi dx dy pixel focal o).alt_arcsec = 0 ∧
    (convert_px_to_alt_azi dx dy pixel focal o).total_arcsec = 0 := by
  have hs : plate_scale_arcsec_per_px pixel focal ≤ 0 :=
    le_of_eq (plate_scale_invalid pixel focal h)
  simp only [convert_px_to_alt_azi, if_pos hs]
  refine ⟨by trivial, ?_, by trivial, by trivial, by trivial⟩
  decide

/-- C6 (witness): a zero pixel size yields the disabled result. -/
theorem converter_invalid_optics_witness :
    ((0 : ℝ) ≤ 0 ∨ (700 : ℝ) ≤ 0) ∧
    (convert_px_to_alt_azi 5 5 0 700 "N_ARRIBA").ok = false :=
  ⟨Or.inl le_rfl,
    (converter_invalid_optics 5 5 0 700 "N_ARRIBA" (Or.inl le_rfl)).1⟩

/-- C7: `detect_stars` thresholds at mean plus three standard deviations;
its candidates are exactly the interior pixels (1-pixel border excluded)
that strictly exceed the threshold and are `≥` each of their 8 neighbours;
the candidate list is sorted by intensity descending and truncated to
`max_points`, so the result has at most `max_points` points. -/
theorem detect_stars_spec (img : Image) (mp : ℕ) :
    (detect_stars img mp).length ≤ mp ∧
    ((sortByValDesc (candPairs img (imgMean img + 3.0 * imgStd img))).Pairwise
      fun a b => b.2 ≤ a.2) ∧
    detect_stars img mp =
      ((sortByValDesc (candPairs img (imgMean img + 3.0 * imgStd img))).take
        mp).map (fun t => (((t.1.2 + 1 : ℕ) : ℝ), ((t.1.1 + 1 : ℕ) : ℝ))) ∧
    ∀ i j : ℕ,
      (i, j) ∈ maximaCoords img (imgMean img + 3.0 * imgStd img) ↔
        i + 2 < img.H ∧ j + 2 < img.W ∧
        img.pix (i+1) (j+1) > imgMean img + 3.0 * imgStd img ∧
        img.pix (i+1) (j+1) ≥ img.pix i j ∧
        img.pix (i+1) (j+1) ≥ img.pix i (j+1) ∧
        img.pix (i+1) (j+1) ≥ img.pix i (j+2) ∧
        img.pix (i+1) (j+1) ≥ img.pix (i+1) j ∧
        img.pix (i+1) (j+1) ≥ img.pix (i+1) (j+2) ∧
        img.pix (i+1) (j+1) ≥ img.pix (i+2) j ∧
        img.pix (i+1) (j+1) ≥ img.pix (i+2) (j+1) ∧
        img.pix (i+1) (j+1) ≥ img.pix (i+2) (j+2) :=
  ⟨detect_stars_length_le img mp, sortByValDesc_sorted _,
    detect_stars_take img mp, fun i j => mem_maximaCoords img _ i j⟩

/-- C7 (witness): the length bound instantiated on the all-black frame. -/
theorem detect_stars_spec_witness : (detect_stars zero3 220).length ≤ 220 :=
  (detect_stars_spec zero3 220).1

/-- C8: whenever `match_points` accepts zero pairs — in particular when
either input set is empty — it returns two empty matched arrays together
with the infinite mean-error sentinel. -/
theorem match_points_zero_pairs (P Q : List Point) (tol : ℝ) :
    (P = [] ∨ Q = [] → match_points P Q tol = ([], [], (⊤ : EReal))) ∧
    ((match_points P Q tol).1 = [] →
      match_points P Q tol = ([], [], (⊤ : EReal))) := by
  constructor
  · intro h
    rw [match_points, if_pos (by rcases h with h | h <;> simp [h])]
  · intro h
    by_cases hPQ : P.length = 0 ∨ Q.length = 0
    · rw [match_points, if_pos hPQ]
    · have hlens : P.length ≠ 0 ∧ Q.length ≠ 0 := by
        push_neg at hPQ
        exact hPQ
      have hQ : Q ≠ [] := fun hq => hlens.2 (by simp [hq])
      obtain ⟨js, h1, h2, h3, h4, h5, h6⟩ :=
        matchLoop_spec Q tol hQ P (List.replicate Q.length false) (by simp)
      by_cases hz : (matchLoop Q tol P (List.replicate Q.length false)).2.2.length = 0
      · simp only [match_points]
        rw [if_neg hPQ, if_pos hz]
      · exfalso
        simp only [match_points] at h
        rw [if_neg hPQ, if_neg hz] at h
        dsimp only at h
        apply hz
        rw [h5, ← h3, h, List.length_nil]

/-- C8 (witness): two empty inputs give empty arrays and the sentinel. -/
theorem match_points_zero_pairs_witness :
    match_points ([] : List Point) ([] : List Point) 6 =
      ([], [], (⊤ : EReal)) :=
  (match_points_zero_pairs [] [] 6).1 (Or.inl rfl)

/-- C9: the greedy one-to-one invariant — the two matched arrays have equal
length, at most `min |P| |Q|`, and the matched `Q` entries are drawn at
pairwise-distinct `Q` indices (no `Q` point is consumed twice). -/
theorem match_points_one_to_one (P Q : List Point) (tol : ℝ) :
    (match_points P Q tol).1.length = (match_points P Q tol).2.1.length ∧
    (match_points P Q tol).1.length ≤ min P.length Q.length ∧
    ∃ js : List ℕ, js.Nodup ∧ (∀ j ∈ js, j < Q.length) ∧
      (match_points P Q tol).2.1 =
        js.map fun j => Q.getD j ((0 : ℝ), (0 : ℝ)) := by
  by_cases hPQ : P.length = 0 ∨ Q.length = 0
  · rw [match_points, if_pos hPQ]
    exact ⟨rfl, by simp, [], by simp⟩
  · have hlens : P.length ≠ 0 ∧ Q.length ≠ 0 := by
      push_neg at hPQ
      exact hPQ
    have hQ : Q ≠ [] := fun hq => hlens.2 (by simp [hq])
    obtain ⟨js, h1, h2, h3, h4, h5, h6⟩ :=
      matchLoop_spec Q tol hQ P (List.replicate Q.length false) (by simp)
    by_cases hz : (matchLoop Q tol P (List.replicate Q.length false)).2.2.length = 0
    · simp only [match_points]
      rw [if_neg hPQ, if_pos hz]
      exact ⟨rfl, by simp, [], by simp⟩
    · simp only [match_points]
      rw [if_neg hPQ, if_neg hz]
      dsimp only
      refine ⟨?_, ?_, js, h1, fun j hj => (h2 j hj).1, h4⟩
      · rw [h3, h4, List.length_map]
      · rw [le_min_iff]
        refine ⟨h6, ?_⟩
        rw [h3]
        exact nodup_bounded_length js Q.length h1 fun j hj => (h2 j hj).1

/-- C9 (witness): the invariant instantiated on empty inputs. -/
theorem match_points_one_to_one_witness :
    (match_points ([] : List Point) [] 6).1.length =
      (match_points ([] : List Point) [] 6).2.1.length :=
  (match_points_one_to_one [] [] 6).1

/-- C10: whenever the orchestrator reports `ok = false` (the inputs being
genuine 2-D images by construction), the returned centre is the geometric
centre `(W/2, H/2)` of the first image, the offset is `(0, 0)` and the total
error is `0` — no partial centre estimate leaks out of a failure path. -/
theorem solver_failure_center (img1 img2 : Image) (sd : ℝ × ℝ) (st tol : ℝ)
    (mp : ℕ)
    (h : (solve_polar_two_step img1 img2 sd st tol mp).ok = false) :
    (solve_polar_two_step img1 img2 sd st tol mp).center_xy =
      ((img1.W : ℝ) / 2, (img1.H : ℝ) / 2) ∧
    (solve_polar_two_step img1 img2 sd st tol mp).offset_xy = (0, 0) ∧
    (solve_polar_two_step img1 img2 sd st tol mp).total_error_px = 0 := by
  by_cases h12 : (detect_stars img1 mp).length < 12 ∨
      (detect_stars img2 mp).length < 12
  · rw [solve_few_stars img1 img2 sd st tol mp h12]
    exact ⟨rfl, rfl, rfl⟩
  · by_cases hb : (solverBest img1 img2 sd st tol mp).1 < 8
    · rw [solve_insufficient img1 img2 sd st tol mp h12 hb]
      exact ⟨rfl, rfl, rfl⟩
    · by_cases hr : (solverRematch img1 img2 sd st tol mp).1.length < 8
      · rw [solve_rematch_small img1 img2 sd st tol mp h12 hb hr]
        exact ⟨rfl, rfl, rfl⟩
      · by_cases hce : (estimate_center_from_pairs
            (solverRematch img1 img2 sd st tol mp).1
            (solverRematch img1 img2 sd st tol mp).2.1
            (solverBest img1 img2 sd st tol mp).2.2).2 = false
        · rw [solve_degenerate img1 img2 sd st tol mp h12 hb hr hce]
          exact ⟨rfl, rfl, rfl⟩
        · exfalso
          rw [solve_success img1 img2 sd st tol mp h12 hb hr hce] at h
          simp at h

/-- C10 (witness): on two all-black frames the solver fails and indeed
reports a zero offset. -/
theorem solver_failure_center_witness :
    (solve_polar_two_step zero3 zero3 ((35 : ℝ), 145) 1 7 220).ok = false ∧
    (solve_polar_two_step zero3 zero3 ((35 : ℝ), 145) 1 7 220).offset_xy =
      (0, 0) := by
  have hok : (solve_polar_two_step zero3 zero3 ((35 : ℝ), 145) 1 7 220).ok =
      false := by
    rw [solve_few_stars zero3 zero3 ((35 : ℝ), 145) 1 7 220
      (Or.inl (by rw [detect_zero3]; norm_num))]
  exact ⟨hok,
    (solver_failure_center zero3 zero3 ((35 : ℝ), 145) 1 7 220 hok).2.1⟩

end LyraSolver
